import Mathlib

/-!
Shallow embedding of the search/filter utility `get_queryset` from
`apps/user_documents/utils.py` (lines 63-115) of the Portfolio repository.

The function tokenizes a free-text query (`query.split()` followed by
`rstrip(".,")` on each piece), then for each token tries five field
interpretations in a fixed order (name substring, cc substring, record year,
record month, record day).  Each interpretation runs inside a `try/except`
that swallows every exception; on success a Django `Q(**{field: value})`
predicate is appended.  All predicates are OR-folded into one `Q` object and
the model is filtered with `.filter(consultation).distinct()`.

Python specifics that the embedding keeps:
* the local variable `value` persists across loop iterations, so the month
  branch can observe a stale value left by the year branch of the same token;
* CPython's `_strptime` table: `'%Y'` matches exactly four decimal digits
  (with year >= datetime.MINYEAR = 1), `'%m'` matches `1[0-2]|0[1-9]|[1-9]`
  (1-2 digits, month in 1..12) and `'%d'` matches
  `3[0-1]|[1-2]\d|0[1-9]|[1-9]| [1-9]` (1-2 digits, day in 1..31; the
  leading-space form cannot occur in a whitespace-split token, and the
  default date January 1900 has all days 1..31); the whole token must be
  consumed, digits are ASCII decimal digits;
* `Q()` is the empty combination: OR-ing it with a predicate yields that
  predicate, and filtering by the empty `Q()` applies no constraint.

String primitives are written as structural recursions over the character
list so that every definition evaluates on concrete inputs.
-/

/-- A value held by the Python local variable `value`: either a string
(from the substring branches) or an int (from the date branches). -/
inductive PyVal where
  | str : String → PyVal
  | int : Nat → PyVal
deriving DecidableEq

/-- One Django `Q(**{field: value})` predicate, as built on line 110. -/
structure QPred where
  field : String
  value : PyVal
deriving DecidableEq

/-- The `field_type` tags of `filters_list` (lines 81-87). -/
inductive FType where
  | string
  | year
  | month
  | day
deriving DecidableEq

/-- `filters_list` (lines 81-87): the five field interpretations tried for
every token, in source order. -/
def filters_list : List (String × FType) :=
  [("name__icontains", FType.string),
   ("cc__icontains", FType.string),
   ("patientrecord__date__year", FType.year),
   ("patientrecord__date__month", FType.month),
   ("patientrecord__date__day", FType.day)]

/-- `MONTHS` (lines 88-89): the fixed month-name table; tuple `i`
(0-based) stands for month `i+1`. -/
def MONTHS : List (List String) :=
  [["Jan", "January", "jan"],
   ["Feb", "February", "feb"],
   ["Mar", "March", "mar"],
   ["Apr", "April", "apr"],
   ["May", "May", "may"],
   ["Jun", "June", "jun"],
   ["Jul", "July", "jul"],
   ["Aug", "August", "aug"],
   ["Sep", "Sept", "September", "sep", "sept"],
   ["Oct", "October", "oct"],
   ["Nov", "November", "nov"],
   ["Dec", "December", "dec"]]

/-- The `for i, months in enumerate(MONTHS): if word in months: value = i+1;
break` loop (lines 96-99): the first tuple containing the word wins. -/
def monthNameLookupAux (w : String) : Nat → List (List String) → Option Nat
  | _, [] => none
  | i, ms :: rest => if ms.contains w then some (i + 1) else monthNameLookupAux w (i + 1) rest

def monthNameLookup (w : String) : Option Nat :=
  monthNameLookupAux w 0 MONTHS

/-- Decimal value of a digit list (most significant first). -/
def natOfDigits : List Char → Nat → Nat
  | [], acc => acc
  | c :: cs, acc => natOfDigits cs (acc * 10 + (c.toNat - 48))

/-- Python `int`-style read of a token made only of decimal digits;
`none` when the token is empty or holds a non-digit. -/
def strToNat? (w : String) : Option Nat :=
  let cs := w.toList
  if cs ≠ [] ∧ cs.all Char.isDigit then some (natOfDigits cs 0) else none

/-- `datetime.strptime(word, '%Y').year` (line 94): `%Y` matches exactly four
digits (the whole token), and the year must be at least
`datetime.MINYEAR = 1`. -/
def parseYear (w : String) : Option Nat :=
  match strToNat? w with
  | some n => if 1 ≤ n ∧ w.toList.length = 4 then some n else none
  | none => none

/-- `datetime.strptime(word, '%m').month` (line 101): `%m` matches 1-2 digits
(the whole token), and the month must lie in 1..12. -/
def parseMonth (w : String) : Option Nat :=
  match strToNat? w with
  | some n => if 1 ≤ n ∧ n ≤ 12 ∧ w.toList.length ≤ 2 then some n else none
  | none => none

/-- `datetime.strptime(word, '%d').day` (line 103): `%d` matches 1-2 digits
(the whole token), and the day must lie in 1..31. -/
def parseDay (w : String) : Option Nat :=
  match strToNat? w with
  | some n => if 1 ≤ n ∧ n ≤ 31 ∧ w.toList.length ≤ 2 then some n else none
  | none => none

/-- The body of the `try:` block (lines 92-107) for one token and one entry of
`filters_list`.  `v` is the current content of the Python local `value`
(`none` = not yet assigned).  `Except.error ()` means the body raised
(a `ValueError` from `strptime`, or a `NameError` from reading an unassigned
`value` in the `isinstance` test); in that case `value` is left unchanged. -/
def tryBody (ft : FType) (word : String) (v : Option PyVal) : Except Unit PyVal :=
  match ft with
  | .string => .ok (.str word)
  | .year =>
    match parseYear word with
    | some n => .ok (.int n)
    | none => .error ()
  | .month =>
    -- the name loop assigns `value` only on a match (lines 96-99)
    let v1 : Option PyVal :=
      match monthNameLookup word with
      | some m => some (.int m)
      | none => v
    -- `if not isinstance(value, int) or value > 12:` (line 100)
    match v1 with
    | some (.int m) =>
      if m ≤ 12 then .ok (.int m)
      else
        match parseMonth word with
        | some k => .ok (.int k)
        | none => .error ()
    | some (.str _) =>
      match parseMonth word with
      | some k => .ok (.int k)
      | none => .error ()
    | none => .error ()
  | .day =>
    match parseDay word with
    | some n => .ok (.int n)
    | none => .error ()

/-- One iteration of the inner `for field, field_type in filters_list` loop
(lines 91-110): the `except: continue` (lines 108-109) swallows any exception
and leaves `value` unchanged; on success `Q(**{field: value})` is appended. -/
def fieldStep (word : String) (f : String × FType) (v : Option PyVal) :
    Option PyVal × Option QPred :=
  match tryBody f.2 word v with
  | .error _ => (v, none)
  | .ok v' => (some v', some ⟨f.1, v'⟩)

/-- The inner loop over `filters_list` for one token, threading the Python
local `value` and accumulating into the shared `filters` list. -/
def wordStepsAux (word : String) : List (String × FType) → Option PyVal → List QPred →
    Option PyVal × List QPred
  | [], v, acc => (v, acc)
  | f :: fs, v, acc =>
    let s := fieldStep word f v
    wordStepsAux word fs s.1 (acc ++ s.2.toList)

def wordSteps (word : String) (v : Option PyVal) : Option PyVal × List QPred :=
  wordStepsAux word filters_list v []

/-- The predicates contributed by a single token. -/
def predsOfWord (word : String) : List QPred :=
  (wordSteps word none).2

/-- The outer `for word in keywords` loop (line 90), threading `value`
across tokens and accumulating the `filters` list. -/
def buildFilters : List String → Option PyVal → List QPred → List QPred
  | [], _, acc => acc
  | w :: ws, v, acc =>
    let s := wordStepsAux w filters_list v acc
    buildFilters ws s.1 s.2

/-- Whitespace for `str.split()` on ASCII input: space, tab, newline,
carriage return, vertical tab, form feed. -/
def pyIsSpace (c : Char) : Bool :=
  c == ' ' || c == '\t' || c == '\n' || c == '\r' || c == '\x0b' || c == '\x0c'

/-- Worker for `query.split()`: walk the characters, collecting maximal runs
of non-whitespace (current run is kept reversed in `cur`). -/
def pySplitAux : List Char → List Char → List String
  | [], cur => if cur.isEmpty then [] else [String.mk cur.reverse]
  | c :: cs, cur =>
    if pyIsSpace c then
      if cur.isEmpty then pySplitAux cs [] else String.mk cur.reverse :: pySplitAux cs []
    else
      pySplitAux cs (c :: cur)

/-- `query.split()` (line 78): split on whitespace runs, no empty pieces. -/
def pySplit (q : String) : List String :=
  pySplitAux q.toList []

/-- `p.rstrip(".,")` (line 79): drop trailing `.` and `,` characters. -/
def pyRstrip (s : String) : String :=
  String.mk ((s.toList.reverse.dropWhile (fun c => c == '.' || c == ',')).reverse)

/-- Lines 78-79: the `keywords` list. -/
def tokenize (q : String) : List String :=
  (pySplit q).map pyRstrip

/-- All predicates built for a query (lines 78-110). -/
def queryFilters (q : String) : List QPred :=
  buildFilters (tokenize q) none []

/-- A date of a related `PatientRecord` row. -/
structure PRDate where
  year : Nat
  month : Nat
  day : Nat
deriving DecidableEq

/-- A `Patient`-like row: the fields the five predicates can touch.  `dates`
are the dates of the related `PatientRecord` rows (the reverse foreign key
`patientrecord__date`). -/
structure Record where
  name : String
  cc : String
  dates : List PRDate
deriving DecidableEq

/-- Does `pat` begin `hay` (character lists)? -/
def startsWithCh : List Char → List Char → Bool
  | [], _ => true
  | _ :: _, [] => false
  | a :: as, b :: bs => a == b && startsWithCh as bs

/-- Contiguous-substring test on character lists. -/
def infixOf (pat : List Char) : List Char → Bool
  | [] => pat.isEmpty
  | c :: rest => startsWithCh pat (c :: rest) || infixOf pat rest

/-- Django `field__icontains=pat`: case-insensitive substring containment. -/
def icontains (hay pat : String) : Bool :=
  infixOf (pat.toList.map Char.toLower) (hay.toList.map Char.toLower)

/-- Whether one predicate matches one record.  A date lookup through the
reverse foreign key matches a patient that has at least one related record
with that date component. -/
def qMatch (p : QPred) (r : Record) : Bool :=
  match p.field, p.value with
  | "name__icontains", .str s => icontains r.name s
  | "cc__icontains", .str s => icontains r.cc s
  | "patientrecord__date__year", .int n => r.dates.any (fun d => d.year == n)
  | "patientrecord__date__month", .int n => r.dates.any (fun d => d.month == n)
  | "patientrecord__date__day", .int n => r.dates.any (fun d => d.day == n)
  | _, _ => false

/-- `model.objects.filter(consultation)` where `consultation` is the OR-fold
of `filters` starting from `Q()` (lines 111-114).  Django's `|` on `Q`
objects drops an empty operand, so the fold is the list of disjuncts, and
filtering by the empty `Q()` applies no constraint. -/
def filterQ (ps : List QPred) (rows : List Record) : List Record :=
  if ps.isEmpty then rows else rows.filter (fun r => ps.any (fun p => qMatch p r))

/-- `get_queryset(query, model)` (lines 63-115): build the keyword list, build
the predicates, OR-fold them, filter and deduplicate (`.distinct()`). -/
def get_queryset (query : String) (rows : List Record) : List Record :=
  (filterQ (queryFilters query) rows).dedup

/-! ### Structural lemmas about the predicate-building loop -/

/-- Every index produced by the month-name loop lies between `i+1` and
`i +` the number of remaining tuples. -/
theorem monthNameLookupAux_le (w : String) :
    ∀ (l : List (List String)) (i m : Nat),
      monthNameLookupAux w i l = some m → 1 ≤ m ∧ m ≤ i + l.length := by
  intro l
  induction l with
  | nil => intro i m h; simp [monthNameLookupAux] at h
  | cons ms rest ih =>
    intro i m h
    simp only [monthNameLookupAux] at h
    split at h
    · cases h
      simp only [List.length_cons]
      omega
    · have h2 := ih (i + 1) m h
      simp only [List.length_cons]
      omega

/-- A matched month name is mapped into 1..12. -/
theorem monthNameLookup_le {w : String} {m : Nat}
    (h : monthNameLookup w = some m) : 1 ≤ m ∧ m ≤ 12 := by
  have h2 := monthNameLookupAux_le w MONTHS 0 m h
  simpa [MONTHS] using h2

/-- The inner loop only appends to the accumulator. -/
theorem wordStepsAux_append (word : String) (fs : List (String × FType)) :
    ∀ (v : Option PyVal) (acc : List QPred),
      wordStepsAux word fs v acc =
        ((wordStepsAux word fs v []).1, acc ++ (wordStepsAux word fs v []).2) := by
  induction fs with
  | nil => intro v acc; simp [wordStepsAux]
  | cons f fs ih =>
    intro v acc
    simp only [wordStepsAux, List.nil_append]
    rw [ih (fieldStep word f v).1 (acc ++ (fieldStep word f v).2.toList),
        ih (fieldStep word f v).1 (fieldStep word f v).2.toList]
    simp [List.append_assoc]

/-- The first interpretation of every token is the `name` substring branch,
which always assigns `value = word`; hence the result of processing a token
does not depend on the `value` left over by the previous token. -/
theorem wordSteps_indep (word : String) (v : Option PyVal) :
    wordStepsAux word filters_list v [] = wordStepsAux word filters_list none [] := by
  simp only [filters_list, wordStepsAux, fieldStep, tryBody]

/-- Derived characterization (proved below, never assumed) of the month
branch outcome for a token inside the pipeline: a month-name match wins;
otherwise a four-digit token whose year value is at most 12 is reused as the
month (the stale `value` from the year branch); otherwise the `%m` parse
decides. -/
def monthResolved (w : String) : Option Nat :=
  match monthNameLookup w with
  | some m => some m
  | none =>
    match parseYear w with
    | some n => if n ≤ 12 then some n else parseMonth w
    | none => parseMonth w

/-- Normal form of the predicates contributed by one token: the two substring
predicates always fire, then the optional year, month and day predicates. -/
theorem predsOfWord_spec (w : String) :
    predsOfWord w =
      ⟨"name__icontains", .str w⟩ :: ⟨"cc__icontains", .str w⟩ ::
      (((parseYear w).map (fun n => (⟨"patientrecord__date__year", .int n⟩ : QPred))).toList ++
       ((monthResolved w).map (fun n => (⟨"patientrecord__date__month", .int n⟩ : QPred))).toList ++
       ((parseDay w).map (fun n => (⟨"patientrecord__date__day", .int n⟩ : QPred))).toList) := by
  unfold predsOfWord wordSteps
  rcases hm : monthNameLookup w with _ | m
  · rcases hy : parseYear w with _ | n
    · rcases hpm : parseMonth w with _ | k
      · rcases hd : parseDay w with _ | d <;>
          simp [filters_list, wordStepsAux, fieldStep, tryBody, monthResolved, hm, hy, hpm, hd]
      · rcases hd : parseDay w with _ | d <;>
          simp [filters_list, wordStepsAux, fieldStep, tryBody, monthResolved, hm, hy, hpm, hd]
    · by_cases hn : n ≤ 12
      · rcases hd : parseDay w with _ | d <;>
          simp [filters_list, wordStepsAux, fieldStep, tryBody, monthResolved, hm, hy, hn, hd]
      · rcases hpm : parseMonth w with _ | k
        · rcases hd : parseDay w with _ | d <;>
            simp [filters_list, wordStepsAux, fieldStep, tryBody, monthResolved, hm, hy, hn, hpm, hd]
        · rcases hd : parseDay w with _ | d <;>
            simp [filters_list, wordStepsAux, fieldStep, tryBody, monthResolved, hm, hy, hn, hpm, hd]
  · have hm12 := monthNameLookup_le hm
    rcases hy : parseYear w with _ | n <;>
      rcases hd : parseDay w with _ | d <;>
        simp [filters_list, wordStepsAux, fieldStep, tryBody, monthResolved, hm, hy, hd, hm12.2]

/-- No token's predicate list is empty: the substring branches always fire. -/
theorem predsOfWord_ne_nil (w : String) : predsOfWord w ≠ [] := by
  rw [predsOfWord_spec]
  simp

/-- The outer loop concatenates, token by token, the predicates each token
contributes; the threaded `value` never leaks between tokens. -/
theorem buildFilters_eq (ws : List String) :
    ∀ (v : Option PyVal) (acc : List QPred),
      buildFilters ws v acc = acc ++ (ws.map predsOfWord).flatten := by
  induction ws with
  | nil => intro v acc; simp [buildFilters]
  | cons w ws ih =>
    intro v acc
    simp only [buildFilters]
    rw [wordStepsAux_append w filters_list v acc, wordSteps_indep w v, ih]
    simp [predsOfWord, wordSteps, List.append_assoc]

/-- A predicate is built for a query exactly when some token contributes it. -/
theorem mem_queryFilters (q : String) (p : QPred) :
    p ∈ queryFilters q ↔ ∃ w ∈ tokenize q, p ∈ predsOfWord w := by
  rw [queryFilters, buildFilters_eq]
  simp [List.mem_flatten]

/-- The predicate list is empty exactly when there are no tokens. -/
theorem queryFilters_nil (q : String) : queryFilters q = [] ↔ tokenize q = [] := by
  rw [queryFilters, buildFilters_eq]
  simp only [List.nil_append]
  constructor
  · intro h
    cases hts : tokenize q with
    | nil => rfl
    | cons w ws =>
      rw [hts] at h
      simp only [List.map_cons, List.flatten_cons] at h
      exact absurd (List.append_eq_nil.mp h).1 (predsOfWord_ne_nil w)
  · intro h
    rw [h]
    rfl

/-- Membership in the final queryset: the row is in the collection and
either no predicate was built (empty `Q()`) or some predicate matches. -/
theorem mem_get_queryset (q : String) (rows : List Record) (r : Record) :
    r ∈ get_queryset q rows ↔
      r ∈ rows ∧ (queryFilters q = [] ∨ ∃ p ∈ queryFilters q, qMatch p r = true) := by
  unfold get_queryset filterQ
  cases h : queryFilters q with
  | nil => simp [List.mem_dedup]
  | cons p ps =>
    simp [List.mem_dedup, List.mem_filter, List.any_eq_true]

/-! ### String-level helper lemmas -/

/-- The empty pattern is an infix of every string. -/
theorem infixOf_nil (l : List Char) : infixOf [] l = true := by
  induction l with
  | nil => rfl
  | cons c cs ih => simp [infixOf, startsWithCh, ih]

/-- `icontains` with the empty pattern matches everything. -/
theorem icontains_empty (hay : String) : icontains hay "" = true := by
  simp [icontains, infixOf_nil]

/-- Building a string from a character list yields the empty string exactly
for the empty list. -/
theorem string_mk_eq_empty_iff (l : List Char) : String.mk l = "" ↔ l = [] := by
  constructor
  · intro h
    exact congrArg String.data h
  · intro h
    rw [h]

/-- `query.split()` never yields an empty piece. -/
theorem pySplitAux_ne_empty :
    ∀ (cs cur : List Char) (p : String), p ∈ pySplitAux cs cur → p ≠ "" := by
  intro cs
  induction cs with
  | nil =>
    intro cur p hp
    simp only [pySplitAux] at hp
    split at hp
    · simp at hp
    · rename_i hcur
      simp only [List.mem_singleton] at hp
      subst hp
      intro h
      have h2 := List.reverse_eq_nil_iff.mp ((string_mk_eq_empty_iff _).mp h)
      rw [h2] at hcur
      simp at hcur
  | cons c cs ih =>
    intro cur p hp
    simp only [pySplitAux] at hp
    split at hp
    · split at hp
      · exact ih [] p hp
      · rename_i hcur
        rcases List.mem_cons.mp hp with h1 | h2
        · subst h1
          intro h
          have h2 := List.reverse_eq_nil_iff.mp ((string_mk_eq_empty_iff _).mp h)
          rw [h2] at hcur
          simp at hcur
        · exact ih [] p h2
    · exact ih (c :: cur) p hp

theorem pySplit_ne_empty (q : String) (p : String) (hp : p ∈ pySplit q) : p ≠ "" :=
  pySplitAux_ne_empty q.toList [] p hp

/-- Stripping trailing `.`/`,` from an all-punctuation piece empties it. -/
theorem pyRstrip_punct (p : String)
    (h : p.toList.all (fun c => c == '.' || c == ',') = true) : pyRstrip p = "" := by
  unfold pyRstrip
  have hd : p.toList.reverse.dropWhile (fun c => c == '.' || c == ',') = [] := by
    rw [List.dropWhile_eq_nil_iff]
    intro x hx
    exact (List.all_eq_true.mp h) x (List.mem_reverse.mp hx)
  rw [hd]
  rfl

/-- Conversely, a piece that strips to the empty token was all `.`/`,`. -/
theorem pyRstrip_eq_empty (p : String) (h : pyRstrip p = "") :
    p.toList.all (fun c => c == '.' || c == ',') = true := by
  unfold pyRstrip at h
  have h1 := List.reverse_eq_nil_iff.mp ((string_mk_eq_empty_iff _).mp h)
  rw [List.dropWhile_eq_nil_iff] at h1
  rw [List.all_eq_true]
  intro x hx
  exact h1 x (List.mem_reverse.mpr hx)

/-! ### Exception-threaded semantics, for the safety claim -/

/-- Explicit `try/except`: run the body; on an exception run the handler. -/
def exCatch {α : Type} (x : Except Unit α) (h : Unit → Except Unit α) : Except Unit α :=
  match x with
  | .ok a => .ok a
  | .error e => h e

/-- One inner-loop iteration with the exception made explicit: the `try:`
body may raise; the `except: continue` handler recovers with no predicate
and an unchanged `value`. -/
def fieldStepE (word : String) (f : String × FType) (v : Option PyVal) :
    Except Unit (Option PyVal × Option QPred) :=
  exCatch
    ((tryBody f.2 word v).map
      (fun v' => ((some v' : Option PyVal), some (⟨f.1, v'⟩ : QPred))))
    (fun _ => .ok (v, none))

/-- The inner loop, propagating any exception that would escape a step. -/
def wordStepsAuxE (word : String) : List (String × FType) → Option PyVal → List QPred →
    Except Unit (Option PyVal × List QPred)
  | [], v, acc => .ok (v, acc)
  | f :: fs, v, acc =>
    match fieldStepE word f v with
    | .error e => .error e
    | .ok s => wordStepsAuxE word fs s.1 (acc ++ s.2.toList)

/-- The outer loop, propagating any exception that would escape a token. -/
def buildFiltersE : List String → Option PyVal → List QPred → Except Unit (List QPred)
  | [], _, acc => .ok acc
  | w :: ws, v, acc =>
    match wordStepsAuxE w filters_list v acc with
    | .error e => .error e
    | .ok s => buildFiltersE ws s.1 s.2

/-- `get_queryset` with every potential exception threaded explicitly. -/
def get_querysetE (query : String) (rows : List Record) : Except Unit (List Record) :=
  match buildFiltersE (tokenize query) none [] with
  | .error e => .error e
  | .ok ps => .ok ((filterQ ps rows).dedup)

/-- The `except: continue` catches every exception of a step. -/
theorem fieldStepE_ok (word : String) (f : String × FType) (v : Option PyVal) :
    fieldStepE word f v = .ok (fieldStep word f v) := by
  unfold fieldStepE fieldStep exCatch
  cases tryBody f.2 word v <;> simp [Except.map]

theorem wordStepsAuxE_ok (word : String) (fs : List (String × FType)) :
    ∀ v acc, wordStepsAuxE word fs v acc = .ok (wordStepsAux word fs v acc) := by
  induction fs with
  | nil => intro v acc; rfl
  | cons f fs ih =>
    intro v acc
    rw [wordStepsAuxE, fieldStepE_ok]
    exact ih _ _

theorem buildFiltersE_ok (ws : List String) :
    ∀ v acc, buildFiltersE ws v acc = .ok (buildFilters ws v acc) := by
  induction ws with
  | nil => intro v acc; rfl
  | cons w ws ih =>
    intro v acc
    rw [buildFiltersE, wordStepsAuxE_ok]
    exact ih _ _

/-! ### State-threaded semantics, for the frame claim -/

/-- The externally-owned record store behind `model.objects`. -/
structure Database where
  rows : List Record
deriving DecidableEq

/-- `model.objects.filter(consultation)` (line 114): a read query; it yields
the matching rows and the database as the ORM leaves it. -/
def dbFilter (db : Database) (ps : List QPred) : List Record × Database :=
  (filterQ ps db.rows, db)

/-- `.distinct()` (line 114): also a read query. -/
def dbDistinct (qs : List Record) (db : Database) : List Record × Database :=
  (qs.dedup, db)

/-- `get_queryset` with the database state threaded through the two ORM
calls it makes on line 114. -/
def get_querysetDB (query : String) (db : Database) : List Record × Database :=
  let ps := queryFilters query
  let r1 := dbFilter db ps
  dbDistinct r1.1 r1.2

/-! ### Field-level extraction lemmas -/

/-- A month predicate is contributed by a token exactly as `monthResolved`
dictates. -/
theorem month_mem_predsOfWord (w : String) (m : Nat) :
    (⟨"patientrecord__date__month", .int m⟩ : QPred) ∈ predsOfWord w ↔
      monthResolved w = some m := by
  rw [predsOfWord_spec]
  rcases hy : parseYear w with _ | n <;>
    rcases hmr : monthResolved w with _ | k <;>
      rcases hd : parseDay w with _ | d <;>
        simp [QPred.mk.injEq, eq_comm]

/-- Any predicate on the day field contributed by a token comes from a
successful `%d` parse of that token. -/
theorem day_field_mem (w : String) (p : QPred) (hp : p ∈ predsOfWord w)
    (hf : p.field = "patientrecord__date__day") :
    ∃ k, parseDay w = some k ∧ p = ⟨"patientrecord__date__day", .int k⟩ := by
  rw [predsOfWord_spec] at hp
  rcases hy : parseYear w with _ | n <;>
    rcases hmr : monthResolved w with _ | k <;>
      rcases hd : parseDay w with _ | d <;>
        rw [hy, hmr, hd] at hp <;>
          simp only [Option.map_none', Option.map_some', Option.toList_some, Option.toList_none,
            List.mem_cons, List.mem_append, List.mem_singleton, List.not_mem_nil, or_false,
            List.nil_append, List.append_nil] at hp <;>
          casesm* _ ∨ _ <;> subst_vars <;>
            first
            | exact ⟨_, rfl, rfl⟩
            | exact ⟨_, hd, rfl⟩
            | simp at hf

/-! ### Claims -/

/-- Claim C1: for every input query string (including the empty string, pure
punctuation, and tokens mixing letters and digits), `get_queryset` completes
without raising an exception in the predicate-building phase: under the
exception-threaded semantics the function always returns `ok` with the pure
result, because every parse failure of a token for a given interpretation is
caught by the bare `except: continue` and only that interpretation is
skipped. -/
theorem get_queryset_never_raises (query : String) (rows : List Record) :
    get_querysetE query rows = Except.ok (get_queryset query rows) := by
  unfold get_querysetE get_queryset queryFilters
  rw [buildFiltersE_ok]

/-- Claim C2: for every record collection, calling `get_queryset` with the
empty query string produces no predicates and returns the full unfiltered
collection (the same set of records as applying no filter at all). -/
theorem empty_query_returns_all (rows : List Record) (r : Record) :
    queryFilters "" = [] ∧ (r ∈ get_queryset "" rows ↔ r ∈ rows) := by
  constructor
  · decide
  · rw [mem_get_queryset]
    simp [show queryFilters "" = [] from by decide]

/-- Claim C3 counterexample: the query "2021" also produces a substring
predicate on the name field, so it does not produce a year predicate only. -/
theorem query2021_has_name_pred :
    (⟨"name__icontains", PyVal.str "2021"⟩ : QPred) ∈ queryFilters "2021" := by
  decide

/-- Claim C3 (amended): the query "2021" produces the year=2021 predicate, no
month predicate (2021 is rejected as a month since it exceeds 12) and no day
predicate, alongside the two always-present substring predicates on the name
and identifier fields. -/
theorem query2021_preds :
    queryFilters "2021" =
      [⟨"name__icontains", PyVal.str "2021"⟩, ⟨"cc__icontains", PyVal.str "2021"⟩,
       ⟨"patientrecord__date__year", PyVal.int 2021⟩] := by
  decide

/-- Claim C5 counterexample: the tokenizer output is not always a sequence of
non-empty strings; the query "," tokenizes to a single empty token. -/
theorem tokenize_comma_has_empty_token : ("" : String) ∈ tokenize "," := by
  decide

/-- Claim C5 (amended): the tokenizer splits the raw query on whitespace and
strips trailing `.` and `,` from each piece; "maria," tokenizes identically
to "maria" and the empty input yields the empty sequence; every token is
non-empty except that a piece made only of `.` and `,` characters strips to
the empty token. -/
theorem tokenize_spec (q t : String) :
    tokenize "maria," = tokenize "maria" ∧ tokenize "" = [] ∧
    (t ∈ tokenize q → t ≠ "" ∨
      ∃ p, p ∈ pySplit q ∧ p ≠ "" ∧ t = pyRstrip p ∧
        p.toList.all (fun c => c == '.' || c == ',') = true) := by
  refine ⟨by decide, by decide, ?_⟩
  intro ht
  rcases List.mem_map.mp ht with ⟨p, hp, hpt⟩
  by_cases he : t = ""
  · right
    refine ⟨p, hp, pySplit_ne_empty q p hp, hpt.symm, ?_⟩
    apply pyRstrip_eq_empty
    rw [hpt, he]
  · left
    exact he

/-- Witness for the amended tokenizer claim at the concrete query ",". -/
theorem tokenize_spec_witness :
    ∃ p, p ∈ pySplit "," ∧ p ≠ "" ∧ ("" : String) = pyRstrip p ∧
      p.toList.all (fun c => c == '.' || c == ',') = true :=
  ((tokenize_spec "," "").2.2 (by decide)).resolve_left (by simp)

/-- Claim C9: `get_queryset` never mutates the externally-owned record
collection: threading the database through the two ORM calls leaves it
exactly as it was, the returned rows agree with the pure semantics, and the
function only filters (every returned row was already in the collection). -/
theorem get_queryset_no_mutation (q : String) (db : Database) :
    (get_querysetDB q db).2 = db ∧
    (get_querysetDB q db).1 = get_queryset q db.rows ∧
    (∀ r, r ∈ (get_querysetDB q db).1 → r ∈ db.rows) := by
  refine ⟨rfl, rfl, ?_⟩
  intro r hr
  rw [show (get_querysetDB q db).1 = get_queryset q db.rows from rfl,
      mem_get_queryset] at hr
  exact hr.1

/-- Witness for the frame claim on a concrete database. -/
theorem get_queryset_no_mutation_witness :
    (⟨"ana", "1", []⟩ : Record) ∈ (Database.mk [⟨"ana", "1", []⟩]).rows :=
  (get_queryset_no_mutation "ana" (Database.mk [⟨"ana", "1", []⟩])).2.2
    ⟨"ana", "1", []⟩ (by decide)

/-- Claim C10: a query whose whitespace-pieces consist only of `.` and `,`
characters strips every token to the empty string; the empty-string
substring predicates match every record, so `get_queryset` returns the full
record collection. -/
theorem punct_query_returns_all (q : String) (rows : List Record) (r : Record)
    (h : ∀ p ∈ pySplit q, p.toList.all (fun c => c == '.' || c == ',') = true) :
    r ∈ get_queryset q rows ↔ r ∈ rows := by
  have htok : ∀ t ∈ tokenize q, t = "" := by
    intro t ht
    rcases List.mem_map.mp ht with ⟨p, hp, hpt⟩
    rw [← hpt]
    exact pyRstrip_punct p (h p hp)
  rw [mem_get_queryset]
  rcases hts : tokenize q with _ | ⟨t, ts⟩
  · simp [(queryFilters_nil q).mpr hts]
  · have hqf : (⟨"name__icontains", PyVal.str ""⟩ : QPred) ∈ queryFilters q := by
      rw [mem_queryFilters]
      refine ⟨t, by rw [hts]; exact List.mem_cons_self t ts, ?_⟩
      have he : t = "" := htok t (by rw [hts]; exact List.mem_cons_self t ts)
      rw [he]
      decide
    constructor
    · intro hr
      exact hr.1
    · intro hr
      refine ⟨hr, Or.inr ⟨⟨"name__icontains", PyVal.str ""⟩, hqf, ?_⟩⟩
      simp [qMatch, icontains_empty]

/-- Witness for the punctuation-only claim at the concrete query ",". -/
theorem punct_query_returns_all_witness :
    (⟨"ana", "1", []⟩ : Record) ∈ get_queryset "," [⟨"ana", "1", []⟩] ↔
      (⟨"ana", "1", []⟩ : Record) ∈ [(⟨"ana", "1", []⟩ : Record)] :=
  punct_query_returns_all "," [⟨"ana", "1", []⟩] ⟨"ana", "1", []⟩ (by decide)

/-- Claim C4 counterexample: the token "0012" gains a month=12 predicate even
though it matches no month name and fails the `%m` parse (four digits); the
stale `value` left by the year branch is reused as the month. -/
theorem month_pred_from_stale_value :
    (⟨"patientrecord__date__month", PyVal.int 12⟩ : QPred) ∈ predsOfWord "0012" ∧
      monthNameLookup "0012" = none ∧ parseMonth "0012" = none := by
  refine ⟨by decide, by decide, by decide⟩

/-- Claim C4 (amended): a token contributes a month predicate with value `m`
exactly when it matches the fixed month-name table with value `m`, or (no
name match) it is a four-digit numeric token whose year value `m` is at most
12 - in which case the stale year value is reused as the month - or (no name
match, no year value at most 12) it parses as a 1-2 digit numeric month `m`
in 1..12; every other token contributes no month predicate. -/
theorem month_interpretation (w : String) (m : Nat) :
    (⟨"patientrecord__date__month", PyVal.int m⟩ : QPred) ∈ predsOfWord w ↔
      (monthNameLookup w = some m ∨
       (monthNameLookup w = none ∧ parseYear w = some m ∧ m ≤ 12) ∨
       (monthNameLookup w = none ∧ (∀ n, parseYear w = some n → 12 < n) ∧
         parseMonth w = some m)) := by
  rw [month_mem_predsOfWord]
  unfold monthResolved
  rcases hm : monthNameLookup w with _ | j
  · rcases hy : parseYear w with _ | n
    · simp [hy]
    · by_cases hn : n ≤ 12
      · simp only [hn, if_true, Option.some.injEq, forall_eq', false_or, true_and]
        constructor
        · intro h
          exact Or.inr (Or.inl ⟨by omega, by omega⟩)
        · rintro (h0 | ⟨h1, h2⟩ | ⟨h1, h2⟩)
          · simp at h0
          · omega
          · omega
      · simp only [hn, if_false, Option.some.injEq, forall_eq', false_or, true_and,
          false_and, and_false, or_false]
        constructor
        · intro h
          exact Or.inr (Or.inr ⟨by omega, h⟩)
        · rintro (h0 | ⟨h1, h2⟩ | ⟨h1, h2⟩)
          · simp at h0
          · omega
          · exact h2
  · simp

/-- Claim C7: the query "15" produces a day=15 predicate and no month
predicate (15 exceeds 12), and a token that reads as a number greater than
31 never produces a day predicate. -/
theorem day15_no_month (w : String) (n : Nat) :
    ((⟨"patientrecord__date__day", PyVal.int 15⟩ : QPred) ∈ queryFilters "15") ∧
    (∀ p ∈ queryFilters "15", p.field ≠ "patientrecord__date__month") ∧
    (strToNat? w = some n → 31 < n →
      ∀ p ∈ predsOfWord w, p.field ≠ "patientrecord__date__day") := by
  refine ⟨by decide, by decide, ?_⟩
  intro hw hn p hp hf
  rcases day_field_mem w p hp hf with ⟨k, hk, _⟩
  unfold parseDay at hk
  rw [hw] at hk
  split at hk
  · rename_i n2 hcond
    injection hcond with he
    subst he
    split at hk
    · rename_i hcond2
      obtain ⟨h1, h2, h3⟩ := hcond2
      omega
    · cases hk
  · rename_i hcond
    simp at hcond

/-- Witness for the day claim: "99" reads as 99 > 31 and yields no day
predicate. -/
theorem day15_no_month_witness :
    (⟨"patientrecord__date__day", PyVal.int 99⟩ : QPred) ∉ predsOfWord "99" := by
  intro h
  exact (day15_no_month "99" 99).2.2 (by decide) (by decide) _ h rfl

/-- A successful `%Y` parse consumes exactly four characters. -/
theorem parseYear_length {w : String} {n : Nat} (h : parseYear w = some n) :
    w.toList.length = 4 := by
  unfold parseYear at h
  split at h
  · split at h
    · rename_i hcond
      exact hcond.2
    · cases h
  · cases h

/-- A successful `%d` parse consumes at most two characters. -/
theorem parseDay_length {w : String} {n : Nat} (h : parseDay w = some n) :
    w.toList.length ≤ 2 := by
  unfold parseDay at h
  split at h
  · split at h
    · rename_i hcond
      exact hcond.2.2
    · cases h
  · cases h

/-- Claim C8: every token yields at most one predicate per field family (the
built fields are pairwise distinct) and at most four predicates in total:
the year interpretation needs a four-character token while the day
interpretation needs at most two, so the two substring predicates can be
joined by at most two of the three date predicates. -/
theorem preds_per_token_bound (w : String) :
    (predsOfWord w).length ≤ 4 ∧
      ((predsOfWord w).map (fun p => p.field)).Nodup := by
  rw [predsOfWord_spec]
  rcases hy : parseYear w with _ | n <;>
    rcases hmr : monthResolved w with _ | k <;>
      rcases hd : parseDay w with _ | d
  · exact ⟨by simp, by simp⟩
  · exact ⟨by simp, by simp⟩
  · exact ⟨by simp, by simp⟩
  · exact ⟨by simp, by simp⟩
  · exact ⟨by simp, by simp⟩
  · have h4 := parseYear_length hy
    have h2 := parseDay_length hd
    omega
  · exact ⟨by simp, by simp⟩
  · have h4 := parseYear_length hy
    have h2 := parseDay_length hd
    omega

/-- Claim C6: permuting the query's tokens does not change the set of records
returned by `get_queryset` (the predicates are OR-combined, and OR is
commutative); moreover the result for "maria 2021 jan" is exactly the set of
collection rows matched by at least one of the built predicates (the union
of the individual match sets). -/
theorem token_order_irrelevant (q1 q2 : String) (rows : List Record) (r : Record)
    (h : (tokenize q1).Perm (tokenize q2)) :
    (r ∈ get_queryset q1 rows ↔ r ∈ get_queryset q2 rows) ∧
    (r ∈ get_queryset "maria 2021 jan" rows ↔
      r ∈ rows ∧ ∃ p ∈ queryFilters "maria 2021 jan", qMatch p r = true) := by
  constructor
  · have hnil : queryFilters q1 = [] ↔ queryFilters q2 = [] := by
      rw [queryFilters_nil, queryFilters_nil]
      constructor
      · intro h1
        exact List.perm_nil.mp (h1 ▸ h).symm
      · intro h2
        exact List.perm_nil.mp (h2 ▸ h)
    have hmem : ∀ p : QPred, p ∈ queryFilters q1 ↔ p ∈ queryFilters q2 := by
      intro p
      rw [mem_queryFilters, mem_queryFilters]
      constructor
      · rintro ⟨w, hw, hp⟩
        exact ⟨w, h.subset hw, hp⟩
      · rintro ⟨w, hw, hp⟩
        exact ⟨w, h.symm.subset hw, hp⟩
    rw [mem_get_queryset, mem_get_queryset]
    constructor
    · rintro ⟨hr, hc | ⟨p, hp, hq⟩⟩
      · exact ⟨hr, Or.inl (hnil.mp hc)⟩
      · exact ⟨hr, Or.inr ⟨p, (hmem p).mp hp, hq⟩⟩
    · rintro ⟨hr, hc | ⟨p, hp, hq⟩⟩
      · exact ⟨hr, Or.inl (hnil.mpr hc)⟩
      · exact ⟨hr, Or.inr ⟨p, (hmem p).mpr hp, hq⟩⟩
  · rw [mem_get_queryset]
    have hne : queryFilters "maria 2021 jan" ≠ [] := by decide
    simp [hne]

/-- Witness for the permutation claim on a concrete query pair. -/
theorem token_order_irrelevant_witness :
    (⟨"ana", "1", []⟩ : Record) ∈ get_queryset "ana jan" [⟨"ana", "1", []⟩] ↔
      (⟨"ana", "1", []⟩ : Record) ∈ get_queryset "jan ana" [⟨"ana", "1", []⟩] :=
  (token_order_irrelevant "ana jan" "jan ana" [⟨"ana", "1", []⟩] ⟨"ana", "1", []⟩
    (by decide)).1
